import Mathlib

/-!
Verification of the 4-byte selector recalculator (`signer/fourbyte/4byte.py`).

The script reads a JSON mapping of (possibly wrong) selector → function
signature from `4byte.json`, recomputes each selector as the first 8 hex
characters of the Keccak-256 digest of the UTF-8 encoded signature, and
writes the corrected mapping to `new4byte.json` as a hand-assembled JSON
object literal, finally printing a success message.

The embedding below models:
* Keccak-256 (the original pre-NIST variant, pad byte `0x01`) over byte
  lists, executable on `Nat`;
* `calculate_4byte_selector` over Lean strings;
* the output construction (`new_4byte_json` accumulation loop, the
  object-literal serialization);
* a run model over an explicit file-system state, with Python strings as
  code-point lists so that UTF-8 encoding failure (lone surrogates) is
  representable.
-/

set_option maxRecDepth 8000000
set_option maxHeartbeats 4000000

/-- Rotate a 64-bit lane left by `n` bits. -/
def rol64 (x n : Nat) : Nat :=
  ((x <<< (n % 64)) ||| (x >>> (64 - n % 64))) % (2 ^ 64)

/-- Bitwise complement of a 64-bit lane. -/
def bnot64 (x : Nat) : Nat := 0xFFFFFFFFFFFFFFFF ^^^ x

/-- One step of the degree-8 LFSR (polynomial `x^8+x^6+x^5+x^4+1`, mask
`0x71` after the shift) generating the Keccak round-constant bits. -/
def lfsrStep (r : Nat) : Nat :=
  let r2 := r * 2
  if 256 ≤ r2 then (r2 ^^^ 0x71) % 256 else r2

/-- Bit `rc(t)` of the Keccak round-constant sequence. -/
def rcBit (t : Nat) : Nat := (lfsrStep^[t] 1) &&& 1

/-- Keccak round constants for the 24 rounds of Keccak-f[1600]:
`RC[i]` has bit `rc(7*i + j)` at position `2^j - 1` for `j = 0..6`. -/
def keccakRC : List Nat :=
  (List.range 24).map fun i =>
    (List.range 7).foldl (fun acc j => acc ||| (rcBit (7 * i + j) <<< (2 ^ j - 1))) 0

/-- Rotation offsets of the rho step, indexed by lane position `x + 5 * y`:
walking `(x, y) := (y, (2x + 3y) mod 5)` from `(1, 0)`, lane `t` of the walk
gets offset `(t+1)(t+2)/2 mod 64`, and lane `(0, 0)` keeps offset 0. -/
def rotOff : List Nat :=
  ((List.range 24).foldl
    (fun st t => (st.2.1, (2 * st.1 + 3 * st.2.1) % 5,
      st.2.2.set (st.1 + 5 * st.2.1) ((t + 1) * (t + 2) / 2 % 64)))
    (1, 0, List.replicate 25 0)).2.2

/-- Theta step of the Keccak round function. -/
def theta (A : List Nat) : List Nat :=
  let C := (List.range 5).map fun x =>
    A.getD x 0 ^^^ A.getD (x + 5) 0 ^^^ A.getD (x + 10) 0 ^^^
      A.getD (x + 15) 0 ^^^ A.getD (x + 20) 0
  let D := (List.range 5).map fun x =>
    C.getD ((x + 4) % 5) 0 ^^^ rol64 (C.getD ((x + 1) % 5) 0) 1
  (List.range 25).map fun i => A.getD i 0 ^^^ D.getD (i % 5) 0

/-- Combined rho (rotation) and pi (lane permutation) steps. -/
def rhoPi (A : List Nat) : List Nat :=
  (List.range 25).foldl
    (fun B i =>
      let x := i % 5
      let y := i / 5
      B.set (y + 5 * ((2 * x + 3 * y) % 5)) (rol64 (A.getD i 0) (rotOff.getD i 0)))
    (List.replicate 25 0)

/-- Chi step of the Keccak round function. -/
def chi (B : List Nat) : List Nat :=
  (List.range 25).map fun i =>
    let x := i % 5
    let y := i / 5
    B.getD i 0 ^^^ (bnot64 (B.getD ((x + 1) % 5 + 5 * y) 0) &&& B.getD ((x + 2) % 5 + 5 * y) 0)

/-- One round of Keccak-f[1600]: theta, rho, pi, chi, then iota. -/
def keccakRound (A : List Nat) (rc : Nat) : List Nat :=
  let C := chi (rhoPi (theta A))
  C.set 0 (C.getD 0 0 ^^^ rc)

/-- The full Keccak-f[1600] permutation (24 rounds). -/
def keccakF (A : List Nat) : List Nat := keccakRC.foldl keccakRound A

/-- Interpret up to 8 bytes as a 64-bit lane, little endian. -/
def bytesToLane (bs : List Nat) : Nat := bs.foldr (fun b acc => acc * 256 + b) 0

/-- Keccak pad10*1 with domain byte `0x01` (the original Keccak padding;
SHA3-256 would use `0x06`, which is what distinguishes the two variants). -/
def keccakPad (m : List Nat) : List Nat :=
  let q := 136 - m.length % 136
  if q = 1 then m ++ [0x81]
  else m ++ [0x01] ++ List.replicate (q - 2) 0 ++ [0x80]

/-- Fuel-indexed splitting of a byte list into 136-byte blocks
(structural recursion so that concrete instances reduce in the kernel). -/
def chunksAux : Nat → List Nat → List (List Nat)
  | 0, _ => []
  | _, [] => []
  | fuel + 1, a :: rest => ((a :: rest).take 136) :: chunksAux fuel ((a :: rest).drop 136)

/-- Split a byte list into consecutive 136-byte rate blocks. -/
def chunks136 (l : List Nat) : List (List Nat) := chunksAux l.length l

/-- Absorb one 136-byte block into the sponge state and permute. -/
def absorbBlock (A : List Nat) (block : List Nat) : List Nat :=
  keccakF ((List.range 25).map fun i =>
    A.getD i 0 ^^^ (if i < 17 then bytesToLane ((block.drop (8 * i)).take 8) else 0))

/-- Keccak-256 digest (32 bytes) of a byte list. -/
def keccak256Bytes (msg : List Nat) : List Nat :=
  let final := (chunks136 (keccakPad msg)).foldl absorbBlock (List.replicate 25 0)
  (List.range 32).map fun i => (final.getD (i / 8) 0 >>> (8 * (i % 8))) % 256

/-- The sixteen lowercase hexadecimal digit characters. -/
def hexDigits : List Char := "0123456789abcdef".data

/-- Lowercase hexadecimal digit for a value below 16. -/
def hexDigitChar (n : Nat) : Char := hexDigits.getD n '0'

/-- Two lowercase hex characters for one byte. -/
def byteHexChars (b : Nat) : List Char := [hexDigitChar (b / 16), hexDigitChar (b % 16)]

/-- UTF-8 encoding of a Unicode code point, as a list of byte values. -/
def utf8EncodeCodepoint (n : Nat) : List Nat :=
  if n < 0x80 then [n]
  else if n < 0x800 then
    [0xC0 ||| (n >>> 6), 0x80 ||| (n &&& 0x3F)]
  else if n < 0x10000 then
    [0xE0 ||| (n >>> 12), 0x80 ||| ((n >>> 6) &&& 0x3F), 0x80 ||| (n &&& 0x3F)]
  else
    [0xF0 ||| (n >>> 18), 0x80 ||| ((n >>> 12) &&& 0x3F),
     0x80 ||| ((n >>> 6) &&& 0x3F), 0x80 ||| (n &&& 0x3F)]

/-- UTF-8 bytes of a Lean string (`signature.encode('utf-8')`; Lean chars are
always encodable, matching the spec's assumption for well-formed text). -/
def strUtf8 (s : String) : List Nat :=
  (s.data.map fun c => utf8EncodeCodepoint c.toNat).flatten

/-- `keccak.hexdigest()`: the 64-character lowercase hex rendering of the
32-byte Keccak-256 digest. -/
def hexdigestOf (bs : List Nat) : String :=
  String.mk ((keccak256Bytes bs).map byteHexChars).flatten

/-- Python string slicing `x[:n]` selects the first `n` code points. -/
def strTake (s : String) (n : Nat) : String := String.mk (s.data.take n)

/-- `calculate_4byte_selector` from `4byte.py`: Keccak-256 of the UTF-8
encoded signature, hex digest, first 8 characters. -/
def calculate_4byte_selector (signature : String) : String :=
  strTake (hexdigestOf (strUtf8 signature)) 8

/-- The f-string line built for one entry:
`f-quote selector-colon-space signature quote` as in the source. -/
def formattedLine (sel sig : String) : String :=
  "\"" ++ sel ++ "\": \"" ++ sig ++ "\""

/-- The `new_4byte_json` accumulation loop: start from the empty list and
append one formatted line per `(wrong_selector, signature)` item, in
iteration order; the key of each item is never used. -/
def new_4byte_json (function_signatures : List (String × String)) : List String :=
  function_signatures.foldl
    (fun acc p => acc ++ [formattedLine (calculate_4byte_selector p.2) p.2]) []

/-- Content written to `new4byte.json`: opening brace line, the formatted
lines joined with comma-newline, closing brace line. -/
def outputContent (function_signatures : List (String × String)) : String :=
  "\x7b\n" ++ String.intercalate ",\n" (new_4byte_json function_signatures) ++ "\n\x7d"

/-- The success message printed after writing the output file. -/
def successMsg : String :=
  "Successfully recalculated the 4-byte selectors and saved the result to new4byte.json."

/-- A Python string as a list of Unicode code points. Unlike Lean `Char`,
a Python `str` (e.g. one produced by `json.load` from a `\uD800` escape)
may hold lone surrogates, which fail to encode as UTF-8. -/
abbrev PyStr : Type := List Nat

/-- `s.encode('utf-8')` on a Python string: fails on lone surrogates,
otherwise yields the UTF-8 bytes of the code points. -/
def pyEncodeUtf8 (cs : PyStr) : Option (List Nat) :=
  if (List.any cs fun n => decide (0xD800 ≤ n ∧ n < 0xE000)) then none
  else some ((List.map utf8EncodeCodepoint cs).flatten)

/-- Selector (first 8 hex-digest characters) computed from already-encoded
signature bytes. -/
def selectorOfBytes (bs : List Nat) : String := strTake (hexdigestOf bs) 8

/-- Rendering of a surrogate-free Python string as a Lean string, used when
its text is interpolated into an output line. -/
def pyStrRender (cs : PyStr) : String := String.mk (List.map Char.ofNat cs)

/-- The body of the recalculation loop over the parsed input items: encode
each signature (the failure point for `UnicodeEncodeError`), hash it, and
format its output line; any failure aborts with no partial result. -/
def buildLines : List (PyStr × PyStr) → Option (List String)
  | [] => some []
  | (_, sig) :: rest =>
    match pyEncodeUtf8 sig with
    | none => none
    | some bytes =>
      match buildLines rest with
      | none => none
      | some lines => some (formattedLine (selectorOfBytes bytes) (pyStrRender sig) :: lines)

/-- Serialization of the collected lines as the object-literal text. -/
def wrapLines (lines : List String) : String :=
  "\x7b\n" ++ String.intercalate ",\n" lines ++ "\n\x7d"

/-- A file system as an association of file names to contents. -/
structure FS where
  files : List (String × String)
deriving DecidableEq

/-- Read a file's content, if present. -/
def FS.read (fs : FS) (n : String) : Option String :=
  (fs.files.find? fun p => p.1 == n).map Prod.snd

/-- Write (create or overwrite) a file. -/
def FS.write (fs : FS) (n : String) (c : String) : FS :=
  ⟨(n, c) :: fs.files⟩

/-- The whole script as a state transformer on the file system, following
the source's statement order: open and read `4byte.json` (NotFoundError
aborts), parse it (ParseError aborts), run the recalculation loop
(EncodingError aborts), and only then open `new4byte.json`, write the
serialized object and print the success message. `parseJson` stands for
the `json.load` library call; the returned `Option String` is the console
output (`none` on the failure paths). -/
def runScript (parseJson : String → Option (List (PyStr × PyStr))) (fs : FS) :
    FS × Option String :=
  match fs.read "4byte.json" with
  | none => (fs, none)
  | some contents =>
    match parseJson contents with
    | none => (fs, none)
    | some sigs =>
      match buildLines sigs with
      | none => (fs, none)
      | some lines =>
        (fs.write "new4byte.json" (wrapLines lines), some successMsg)

/-- Whitespace characters insignificant in JSON. -/
def jsonWs : List Char := [' ', '\t', '\n', '\r']

/-- Drop insignificant leading whitespace. -/
def skipWs (l : List Char) : List Char := l.dropWhile fun c => jsonWs.contains c

/-- Single-character escapes allowed after a backslash in a JSON string. -/
def jsonEscapes : List Char := ['\"', '\\', '/', 'b', 'f', 'n', 'r', 't']

/-- Hexadecimal digits (either case), for `\uXXXX` escapes. -/
def isHexDigitChar (c : Char) : Bool := decide (c ∈ "0123456789abcdefABCDEF".data)

/-- Modelled from the spec: JSON string-literal scanning (RFC 8259 strings),
needed because §6 calls the output "JSON-like" and asserts that an embedded
double quote makes it invalid JSON; no JSON reader exists under `src/`.
Consumes the body of a string literal after its opening quote and returns
the remainder after the closing quote; fails on raw control characters,
bad escapes, or a missing closing quote. -/
def scanJsonString : List Char → Option (List Char)
  | [] => none
  | '\\' :: e :: rest =>
    if e = 'u' then
      match rest with
      | a :: b :: c :: d :: rest2 =>
        if isHexDigitChar a && isHexDigitChar b && isHexDigitChar c && isHexDigitChar d then
          scanJsonString rest2
        else none
      | _ => none
    else if jsonEscapes.contains e then scanJsonString rest
    else none
  | c :: rest =>
    if c = '\"' then some rest
    else if c.toNat < 32 then none
    else scanJsonString rest

/-- Consume a complete JSON string literal including its opening quote. -/
def parseJsonStringLit (l : List Char) : Option (List Char) :=
  match l with
  | '\"' :: rest => scanJsonString rest
  | _ => none

/-- Modelled from the spec: the members of a flat string-to-string JSON
object — `string : string` pairs separated by commas. Fuel-indexed for
structural recursion; returns the remainder after the last member. -/
def scanMembers : Nat → List Char → Option (List Char)
  | 0, _ => none
  | fuel + 1, l =>
    match parseJsonStringLit (skipWs l) with
    | none => none
    | some r1 =>
      match skipWs r1 with
      | ':' :: r2 =>
        match parseJsonStringLit (skipWs r2) with
        | none => none
        | some r3 =>
          match skipWs r3 with
          | ',' :: r4 => scanMembers fuel r4
          | r4 => some r4
      | _ => none

/-- Modelled from the spec: validity of a text as a flat string-to-string
JSON object literal (the shape §6 prescribes for both files). -/
def isValidFlatJson (s : String) : Bool :=
  match skipWs s.data with
  | c :: rest =>
    if c = Char.ofNat 123 then
      match skipWs rest with
      | d :: rest2 =>
        if d = Char.ofNat 125 then (skipWs rest2).isEmpty
        else
          match scanMembers (rest.length + 1) rest with
          | some r =>
            match skipWs r with
            | e :: rest3 => e = Char.ofNat 125 && (skipWs rest3).isEmpty
            | [] => false
          | none => false
      | [] => false
    else false
  | [] => false

/-- Written from the spec's words (§4.1): "apply a Keccak-256 cryptographic
hash over the UTF-8-encoded signature bytes. Take the resulting digest's
hexadecimal representation and return its first 8 hex characters (the first
4 bytes), lowercase". Here stated as: the first 4 digest bytes, rendered in
lowercase hex. -/
def compute_selector_spec (s : String) : String :=
  String.mk (((keccak256Bytes (strUtf8 s)).take 4).map byteHexChars).flatten

theorem foldl_append_eq {α β : Type} (g : α → β) (l : List α) (acc : List β) :
    l.foldl (fun a p => a ++ [g p]) acc = acc ++ l.map g := by
  induction l generalizing acc with
  | nil => simp
  | cons a t ih => simp [List.foldl_cons, ih]

theorem new_4byte_json_eq_map (fs : List (String × String)) :
    new_4byte_json fs = fs.map fun p => formattedLine (calculate_4byte_selector p.2) p.2 := by
  simpa using foldl_append_eq (fun p : String × String =>
    formattedLine (calculate_4byte_selector p.2) p.2) fs []

theorem hexDigitChar_mem (n : Nat) : hexDigitChar n ∈ hexDigits := by
  unfold hexDigitChar
  rcases Nat.lt_or_ge n 16 with h | h
  · interval_cases n <;> decide
  · rw [List.getD_eq_default]
    · decide
    · have hl : hexDigits.length = 16 := by decide
      omega

theorem flatten_byteHex_length (l : List Nat) :
    ((l.map byteHexChars).flatten).length = 2 * l.length := by
  induction l with
  | nil => simp
  | cons b t ih => simp [byteHexChars, ih]; omega

theorem flatten_byteHex_take (l : List Nat) (k : Nat) :
    ((l.map byteHexChars).flatten).take (2 * k) = ((l.take k).map byteHexChars).flatten := by
  induction l generalizing k with
  | nil => simp
  | cons b t ih =>
    cases k with
    | zero => simp
    | succ m =>
      have e : 2 * (m + 1) = (2 * m) + 1 + 1 := by omega
      simp only [List.map_cons, List.flatten_cons, byteHexChars, e, List.cons_append,
        List.take_succ_cons, List.nil_append, List.take_cons]
      simp [ih m, byteHexChars]

theorem keccak256Bytes_length (m : List Nat) : (keccak256Bytes m).length = 32 := by
  simp [keccak256Bytes]

theorem mem_flatten_byteHex {c : Char} {l : List Nat}
    (h : c ∈ (l.map byteHexChars).flatten) : c ∈ hexDigits := by
  rcases List.mem_flatten.1 h with ⟨chunk, hchunk, hc⟩
  rcases List.mem_map.1 hchunk with ⟨b, _, rfl⟩
  simp only [byteHexChars, List.mem_cons, List.not_mem_nil, or_false] at hc
  rcases hc with rfl | rfl <;> exact hexDigitChar_mem _

theorem getD_map_of_lt {α β : Type} (f : α → β) (l : List α) (i : Nat) (d : α) (e : β)
    (h : i < l.length) : (l.map f).getD i e = f (l.getD i d) := by
  induction l generalizing i with
  | nil => simp at h
  | cons a t ih =>
    cases i with
    | zero => simp
    | succ n =>
      simp only [List.map_cons, List.getD_cons_succ]
      exact ih n (by simpa using Nat.lt_of_succ_lt_succ h)

theorem buildLines_length {sigs : List (PyStr × PyStr)} {lines : List String}
    (h : buildLines sigs = some lines) : lines.length = sigs.length := by
  induction sigs generalizing lines with
  | nil => simp [buildLines] at h; simp [← h]
  | cons p rest ih =>
    unfold buildLines at h
    rcases hp : pyEncodeUtf8 p.2 with _ | bytes <;> rw [hp] at h
    · cases h
    · rcases hr : buildLines rest with _ | tl <;> rw [hr] at h
      · cases h
      · cases h
        simp [ih hr]

/-- C2: for every signature string `s`, `calculate_4byte_selector s` equals
the first 8 hex characters (the first 4 bytes, lowercase) of the Keccak-256
digest of the UTF-8 encoding of `s`, as the spec words it. -/
theorem c2_selector_refines_spec (s : String) :
    calculate_4byte_selector s = compute_selector_spec s := by
  simp only [calculate_4byte_selector, compute_selector_spec, strTake, hexdigestOf]
  have h := flatten_byteHex_take (keccak256Bytes (strUtf8 s)) 4
  have h8 : (2 : Nat) * 4 = 8 := rfl
  rw [h8] at h
  rw [h]

/-- C3: for every signature string `s`, `calculate_4byte_selector s` is a
string of exactly 8 characters, each a lowercase hexadecimal digit. -/
theorem c3_selector_shape (s : String) :
    (calculate_4byte_selector s).length = 8 ∧
    ∀ c ∈ (calculate_4byte_selector s).data, c ∈ hexDigits := by
  constructor
  · simp only [calculate_4byte_selector, strTake, hexdigestOf, String.length,
      List.length_take, flatten_byteHex_length, keccak256Bytes_length]
    norm_num
  · intro c hc
    simp only [calculate_4byte_selector, strTake, hexdigestOf] at hc
    exact mem_flatten_byteHex (List.mem_of_mem_take hc)

/-- C4: the output does not depend on the input keys — two input mappings
with the same signature values in the same order yield identical output
content, and each output line's key is `calculate_4byte_selector` of its
signature, never the original input key. -/
theorem c4_key_independence (fs1 fs2 : List (String × String))
    (h : fs1.map Prod.snd = fs2.map Prod.snd) :
    outputContent fs1 = outputContent fs2 ∧
    new_4byte_json fs1 = (fs1.map Prod.snd).map fun sig =>
      formattedLine (calculate_4byte_selector sig) sig := by
  have e : ∀ fs : List (String × String),
      new_4byte_json fs = (fs.map Prod.snd).map fun sig =>
        formattedLine (calculate_4byte_selector sig) sig := by
    intro fs
    rw [new_4byte_json_eq_map, List.map_map]
    rfl
  refine ⟨?_, e fs1⟩
  simp only [outputContent, e fs1, e fs2, h]

/-- C5: the output has exactly one entry per input entry, in the same
order: entry `i` of the output is the formatted line for entry `i` of the
input. -/
theorem c5_order_preservation (fs : List (String × String)) :
    (new_4byte_json fs).length = fs.length ∧
    ∀ i, i < fs.length →
      (new_4byte_json fs).getD i "" =
        formattedLine (calculate_4byte_selector (fs.getD i ("", "")).2)
          (fs.getD i ("", "")).2 := by
  constructor
  · rw [new_4byte_json_eq_map]; simp
  · intro i h
    rw [new_4byte_json_eq_map]
    exact getD_map_of_lt _ fs i ("", "") "" h

/-- C6: every input entry `(k, sig)` contributes an output line whose key is
the recomputed selector of `sig` and whose value is `sig` unchanged, and all
entries are kept (the output length equals the input length, so colliding
recomputed selectors are not deduplicated). -/
theorem c6_entries_preserved (fs : List (String × String)) :
    (∀ p ∈ fs, formattedLine (calculate_4byte_selector p.2) p.2 ∈ new_4byte_json fs) ∧
    (new_4byte_json fs).length = fs.length := by
  constructor
  · intro p hp
    rw [new_4byte_json_eq_map]
    exact List.mem_map_of_mem _ hp
  · rw [new_4byte_json_eq_map]; simp

/-- C9: the run is all-or-nothing — if the run fails (no success message),
the file system is unchanged (nothing written); if it succeeds, the read,
parse and encode stages all succeeded, every parsed entry produced a line,
and the single write is of the complete serialized output. -/
theorem c9_atomicity (parseJson : String → Option (List (PyStr × PyStr))) (fs : FS) :
    ((runScript parseJson fs).2 = none → (runScript parseJson fs).1 = fs) ∧
    ((runScript parseJson fs).2 ≠ none → ∃ c sigs lines,
      fs.read "4byte.json" = some c ∧ parseJson c = some sigs ∧
      buildLines sigs = some lines ∧ lines.length = sigs.length ∧
      runScript parseJson fs =
        (fs.write "new4byte.json" (wrapLines lines), some successMsg)) := by
  rcases h1 : fs.read "4byte.json" with _ | c
  · simp [runScript, h1]
  · rcases h2 : parseJson c with _ | sigs
    · simp [runScript, h1, h2]
    · rcases h3 : buildLines sigs with _ | lines
      · simp [runScript, h1, h2, h3]
      · refine ⟨by simp [runScript, h1, h2, h3], fun _ => ⟨c, sigs, lines, rfl, h2, h3,
          buildLines_length h3, by simp [runScript, h1, h2, h3]⟩⟩

/-- C1: the known ERC-20 test vector — the selector of
`transfer(address,uint256)` is exactly `a9059cbb`. -/
theorem c1_transfer_selector :
    calculate_4byte_selector "transfer(address,uint256)" = "a9059cbb" := by
  decide

/-- Witness for C3 at the concrete signature `transfer(address,uint256)`
and its character 'a'. -/
theorem c3_selector_shape_witness :
    (calculate_4byte_selector "transfer(address,uint256)").length = 8 ∧ 'a' ∈ hexDigits :=
  ⟨(c3_selector_shape "transfer(address,uint256)").1,
   (c3_selector_shape "transfer(address,uint256)").2 'a' (by decide)⟩

/-- Witness for C4: with input key `deadbeef` (not the correct hash), the
output is the same as with any other key, and the output key is the
recomputed `a9059cbb`, not `deadbeef`. -/
theorem c4_key_independence_witness :
    outputContent [("deadbeef", "transfer(address,uint256)")] =
      outputContent [("ffffffff", "transfer(address,uint256)")] ∧
    new_4byte_json [("deadbeef", "transfer(address,uint256)")] =
      ["\"a9059cbb\": \"transfer(address,uint256)\""] :=
  ⟨(c4_key_independence [("deadbeef", "transfer(address,uint256)")]
      [("ffffffff", "transfer(address,uint256)")] rfl).1, by decide⟩

/-- Witness for C5 at a two-entry input: two output entries, and entry 1 is
the formatted line of input entry 1. -/
theorem c5_order_preservation_witness :
    (new_4byte_json [("k1", "a()"), ("k2", "b(uint256)")]).length = 2 ∧
    (new_4byte_json [("k1", "a()"), ("k2", "b(uint256)")]).getD 1 "" =
      "\"cd580ff3\": \"b(uint256)\"" := by
  have h := c5_order_preservation [("k1", "a()"), ("k2", "b(uint256)")]
  refine ⟨h.1, ?_⟩
  rw [h.2 1 (by decide)]
  decide

/-- Witness for C6 at an input with two entries sharing one signature: the
common line is in the output and both duplicates are kept. -/
theorem c6_entries_preserved_witness :
    "\"0c55699c\": \"x()\"" ∈ new_4byte_json [("a", "x()"), ("b", "x()")] ∧
    (new_4byte_json [("a", "x()"), ("b", "x()")]).length = 2 ∧
    new_4byte_json [("a", "x()"), ("b", "x()")] =
      ["\"0c55699c\": \"x()\"", "\"0c55699c\": \"x()\""] := by
  have h := c6_entries_preserved [("a", "x()"), ("b", "x()")]
  have e : formattedLine (calculate_4byte_selector "x()") "x()" = "\"0c55699c\": \"x()\"" := by
    decide
  exact ⟨e ▸ h.1 ("a", "x()") (by decide), h.2, by decide⟩

/-- C7: the output file content is exactly the brace line, the comma-newline
joined `"selector": "signature"` lines with the signature embedded verbatim
(no escaping), and the closing brace line; concretely, a signature holding a
double quote yields output that is not valid flat JSON. -/
theorem c7_serialization_format :
    (∀ fs : List (String × String), outputContent fs =
      "\x7b\n" ++ String.intercalate ",\n"
        (fs.map fun p => "\"" ++ calculate_4byte_selector p.2 ++ "\": \"" ++ p.2 ++ "\"") ++
        "\n\x7d") ∧
    outputContent [("deadbeef", "a\"b(uint256)")] =
      "\x7b\n\"5ea4f0ca\": \"a\"b(uint256)\"\n\x7d" ∧
    isValidFlatJson (outputContent [("deadbeef", "a\"b(uint256)")]) = false := by
  refine ⟨?_, by decide, by decide⟩
  intro fs
  rw [outputContent, new_4byte_json_eq_map]
  rfl

/-- C8: the empty input mapping produces output content exactly
open-brace, newline, newline, close-brace, and the run still writes the
file and prints the success message. -/
theorem c8_empty_input :
    outputContent ([] : List (String × String)) = "\x7b\n\n\x7d" ∧
    runScript (fun _ => some []) ⟨[("4byte.json", "\x7b\x7d")]⟩ =
      (FS.write ⟨[("4byte.json", "\x7b\x7d")]⟩ "new4byte.json" "\x7b\n\n\x7d",
       some successMsg) := by
  exact ⟨by decide, by decide⟩

/-- Witness for C9: a parse failure and an encoding failure (a signature
holding the lone surrogate U+D800) each leave the file system unchanged. -/
theorem c9_atomicity_witness :
    (runScript (fun _ => none) ⟨[("4byte.json", "notjson")]⟩).1 =
      ⟨[("4byte.json", "notjson")]⟩ ∧
    (runScript (fun _ => some [([0x61], [0xD800])]) ⟨[("4byte.json", "x")]⟩).1 =
      ⟨[("4byte.json", "x")]⟩ :=
  ⟨(c9_atomicity (fun _ => none) ⟨[("4byte.json", "notjson")]⟩).1 (by decide),
   (c9_atomicity (fun _ => some [([0x61], [0xD800])]) ⟨[("4byte.json", "x")]⟩).1 (by decide)⟩

/-- C10: `calculate_4byte_selector` is total on the empty string as well,
returning the truncated Keccak-256 digest of the empty byte string,
`c5d24601`, an 8-character lowercase hex selector. -/
theorem c10_empty_string_selector :
    calculate_4byte_selector "" = "c5d24601" ∧
    (calculate_4byte_selector "").length = 8 ∧
    ∀ c ∈ (calculate_4byte_selector "").data, c ∈ hexDigits := by
  exact ⟨by decide, by decide, by decide⟩
